import Mathlib

/-! # Navmesh generation: corridor portals and the triangulation builder

A shallow embedding of two classes of the navmesh library and proofs about them:

* `DelaunayCluster` (`lib/delaunay/delaunayCluster.js`): vertex deduplication
  (`addPoint`) and the collection of constraint edges (`generate`);
* `AStarPath` (`lib/astar/aStarPath.js`): extraction of the portals of a polygon
  chain (`initPortals`) and the feeding of the funnel (`initFunnel`).

Coordinates are exact (`Int`); JavaScript arrays are lists, `push` appends at the
end, and methods that mutate `this` take the object and return the new object.
-/

namespace Navmesh

/-! ## Geometry primitives -/

/-- A 2D coordinate `{x, y}`. -/
structure Point where
  x : Int
  y : Int
  deriving DecidableEq, Repr

/-- A line segment `{start, end}` (the field `end` is written `end_`). -/
structure Line where
  start : Point
  end_ : Point
  deriving DecidableEq, Repr

/-- Modelled from the spec: the helper of `lib/utils` that compares two lines is not part
of the sources at hand. Two edges are equal when their endpoints match in either order,
and points are equal on exact coordinate match. -/
def areLinesEqual (line1 line2 : Line) : Bool :=
  (line1.start == line2.start && line1.end_ == line2.end_) ||
  (line1.start == line2.end_ && line1.end_ == line2.start)

/-- The method `Array.prototype.findIndex`: the position of the first element satisfying
`p`; `none` stands for the result `-1`. -/
def findIndex {α : Type} (p : α → Bool) : List α → Option Nat
  | [] => none
  | a :: as => if p a then some 0 else (findIndex p as).map (· + 1)

/-! ## DelaunayCluster -/

/-- The fields of a `DelaunayCluster` object. A vertex is the two-element array `[x, y]`,
a constraint edge the two-element array `[startIndex, endIndex]`, and a polygon the list
of the vertices `points[index]` of one triangle (`none` is `undefined`, the value of an
index outside `points`). -/
structure DelaunayCluster (Opt : Type) where
  points : List (Int × Int)
  edges : List (Nat × Nat)
  polygons : List (List (Option (Int × Int)))
  tileWidth : Int
  tileHeight : Int
  options : Opt

namespace DelaunayCluster

variable {Opt : Type}

/-- The method `addPoint(x, y)`: the returned index together with the object afterwards. -/
def addPoint (self : DelaunayCluster Opt) (x y : Int) : Nat × DelaunayCluster Opt :=
  match findIndex (fun p => p.1 == x * self.tileWidth && p.2 == y * self.tileHeight)
      self.points with
  | some index => (index, self)
  | none =>
    let points := self.points ++ [(x * self.tileWidth, y * self.tileHeight)]
    (points.length - 1, { self with points := points })

/-- The closure `addEdgeToPoints` of `generate`: it registers both endpoints of `edge` and
leaves their indices in `startIndex` and `endIndex`, returned here as a pair. -/
def addEdgeToPoints (self : DelaunayCluster Opt) (edge : Line) :
    (Nat × Nat) × DelaunayCluster Opt :=
  let r1 := self.addPoint edge.start.x edge.start.y
  let startIndex := r1.1
  let r2 := r1.2.addPoint edge.end_.x edge.end_.y
  let endIndex := r2.1
  ((startIndex, endIndex), r2.2)

/-- The callback of the second and third `forEach` of `generate`:
`addEdgeToPoints(edge); edges.push([ startIndex, endIndex ])`. -/
def addEdgeAndPush (self : DelaunayCluster Opt) (edge : Line) : DelaunayCluster Opt :=
  let r := self.addEdgeToPoints edge
  { r.2 with edges := r.2.edges ++ [r.1] }

/-- The method `generate(polygonEdges, parentEdges, childClusterEdge)`. The triangulation
library `cdt2d` is a parameter; its result `none` is a falsy value (`null`), replaced by
the empty array through `|| []`. -/
def generate (cdt2d : List (Int × Int) → List (Nat × Nat) → Opt → Option (List (List Nat)))
    (self : DelaunayCluster Opt) (polygonEdges parentEdges childClusterEdge : List Line) :
    DelaunayCluster Opt :=
  let s1 := parentEdges.foldl (fun st edge => (st.addEdgeToPoints edge).2) self
  let s2 := childClusterEdge.foldl addEdgeAndPush s1
  let s3 := polygonEdges.foldl addEdgeAndPush s2
  let delaunay := (cdt2d s3.points s3.edges s3.options).getD []
  { s3 with polygons := delaunay.map (fun triangle =>
      triangle.map (fun index => s3.points[index]?)) }

/-- The constructor `new DelaunayCluster(edges, parentEdges, allChildEdges, tileWidth,
tileHeight, options)`. -/
def construct (cdt2d : List (Int × Int) → List (Nat × Nat) → Opt → Option (List (List Nat)))
    (edges parentEdges allChildEdges : List Line) (tileWidth tileHeight : Int)
    (options : Opt) : DelaunayCluster Opt :=
  generate cdt2d
    { points := [], edges := [], polygons := [],
      tileWidth := tileWidth, tileHeight := tileHeight, options := options }
    edges parentEdges allChildEdges

end DelaunayCluster

/-- The world-space vertex `[x * tileWidth, y * tileHeight]` of a tile-space point. -/
def scalePoint (tileWidth tileHeight : Int) (p : Point) : Int × Int :=
  (p.x * tileWidth, p.y * tileHeight)

/-- The scaled endpoints of a list of edges in scanning order, start before end. -/
def scaledEndpoints (tileWidth tileHeight : Int) (edges : List Line) : List (Int × Int) :=
  edges.flatMap (fun e =>
    [scalePoint tileWidth tileHeight e.start, scalePoint tileWidth tileHeight e.end_])

/-! ## AStarPath -/

/-- A polygon of the mesh, as far as `AStarPath` reads it: its list of portals. -/
structure NavMeshPolygon where
  portals : List Line
  deriving DecidableEq, Repr

/-- The class `Funnel` of `./funnel`, which is not part of the sources at hand, as
`AStarPath` uses it: `new Funnel(midPointThreshold)`, `add(point)` or `add(left, right)`
(the second argument is `none` when absent) and `update()`, acting on a funnel of type
`F`. -/
structure FunnelClass (F : Type) where
  create : Int → F
  add : F → Point → Option Point → F
  update : F → F

/-- One method call on a funnel. -/
inductive FunnelCall where
  | add (point : Point) (second : Option Point)
  | update
  deriving DecidableEq, Repr

/-- A funnel that only records the calls made on it, oldest first, together with the
threshold it was created with. -/
def recordingFunnel : FunnelClass (Int × List FunnelCall) where
  create := fun midPointThreshold => (midPointThreshold, [])
  add := fun funnel point second => (funnel.1, funnel.2 ++ [FunnelCall.add point second])
  update := fun funnel => (funnel.1, funnel.2 ++ [FunnelCall.update])

/-- Performs a sequence of calls on a funnel, in order. -/
def FunnelClass.replay {F : Type} (Funnel : FunnelClass F) (funnel : F) :
    List FunnelCall → F
  | [] => funnel
  | FunnelCall.add point second :: calls =>
    Funnel.replay (Funnel.add funnel point second) calls
  | FunnelCall.update :: calls => Funnel.replay (Funnel.update funnel) calls

/-- The `options` argument of the `AStarPath` constructor. -/
structure AStarPathOptions where
  startPoint : Point
  endPoint : Point
  startPolygon : NavMeshPolygon
  endPolygon : NavMeshPolygon
  isConnected : Bool
  midPointThreshold : Int
  deriving DecidableEq, Repr

/-- The fields of an `AStarPath` object; `funnel` is `none` until `initFunnel` sets it. -/
structure AStarPath (F : Type) where
  polygons : List NavMeshPolygon
  isConnected : Bool
  midPointThreshold : Int
  startPoint : Point
  endPoint : Point
  startPolygon : NavMeshPolygon
  endPolygon : NavMeshPolygon
  portals : List Line
  funnel : Option F
  deriving DecidableEq, Repr

namespace AStarPath

variable {F : Type}

/-- The search of line 57 of `aStarPath.js`:
`node.portals.find(portal => nextNode.portals.find(p => areLinesEqual(p, portal)))`.
The inner `find` yields a line (truthy) or `undefined` (falsy); `none` is `undefined`.
The comparison `areLinesEqual` is imported from `lib/utils` and is a parameter. -/
def findPortal (linesEqual : Line → Line → Bool) (node nextNode : NavMeshPolygon) :
    Option Line :=
  node.portals.find? (fun portal =>
    (nextNode.portals.find? (fun p => linesEqual p portal)).isSome)

/-- The body of the `for` loop of `initPortals` at index `i`, acting on the list
`this.portals`. `polygons[i + 1]` is `undefined` past the end, and the iteration is then
skipped by `continue`. -/
def initPortalsStep (linesEqual : Line → Line → Bool) (polygons : List NavMeshPolygon)
    (portals : List Line) (i : Nat) : List Line :=
  match polygons[i]?, polygons[i + 1]? with
  | some node, some nextNode =>
    match findPortal linesEqual node nextNode with
    | some portal => portals ++ [portal]
    | none => portals
  | _, _ => portals

/-- The method `initPortals()`. -/
def initPortals (linesEqual : Line → Line → Bool) (self : AStarPath F) : AStarPath F :=
  let polygons := self.polygons
  let length := polygons.length
  let portals := (List.range length).foldl (initPortalsStep linesEqual polygons) []
  { self with portals := portals.reverse }

/-- The method `initFunnel()`. -/
def initFunnel (Funnel : FunnelClass F) (self : AStarPath F) : AStarPath F :=
  let portals := self.portals
  let length := portals.length
  let funnel := Funnel.create self.midPointThreshold
  let funnel := Funnel.add funnel self.startPoint none
  let funnel := (List.range length).foldl (fun funnel i =>
    match portals[i]? with
    | some portal => Funnel.add funnel portal.start (some portal.end_)
    | none => funnel) funnel
  let funnel := Funnel.add funnel self.endPoint none
  let funnel := Funnel.update funnel
  { self with funnel := some funnel }

/-- The constructor `new AStarPath(polygons, options)`. A JavaScript call either completes
normally or throws; the constructor and the two methods it calls contain no `throw`, and
on polygons and options of the declared types every statement completes normally, so the
result is always `Except.ok`. -/
def construct (linesEqual : Line → Line → Bool) (Funnel : FunnelClass F)
    (polygons : List NavMeshPolygon) (options : AStarPathOptions) :
    Except String (AStarPath F) :=
  let self : AStarPath F :=
    { polygons := polygons
      isConnected := options.isConnected
      midPointThreshold := options.midPointThreshold
      startPoint := options.startPoint
      endPoint := options.endPoint
      startPolygon := options.startPolygon
      endPolygon := options.endPolygon
      portals := []
      funnel := none }
  let self := self.initPortals linesEqual
  let self := self.initFunnel Funnel
  Except.ok self

end AStarPath

/-- The line `q` is the first entry of `a.portals` that is equal to some entry of
`b.portals`. -/
def IsFirstShared (linesEqual : Line → Line → Bool) (a b : NavMeshPolygon) (q : Line) :
    Prop :=
  ∃ before after, a.portals = before ++ q :: after ∧
    (∃ p ∈ b.portals, linesEqual p q = true) ∧
    ∀ q' ∈ before, ∀ p ∈ b.portals, linesEqual p q' = false

/-- Some portal of `a` is equal to some portal of `b`. -/
def SharePortal (linesEqual : Line → Line → Bool) (a b : NavMeshPolygon) : Prop :=
  ∃ q ∈ a.portals, ∃ p ∈ b.portals, linesEqual p q = true

/-- The calls `initFunnel` is to make on the funnel for the given start point, portals
and end point. -/
def funnelCalls (startPoint : Point) (portals : List Line) (endPoint : Point) :
    List FunnelCall :=
  FunnelCall.add startPoint none ::
    (portals.map (fun portal => FunnelCall.add portal.start (some portal.end_)) ++
      [FunnelCall.add endPoint none, FunnelCall.update])

/-- The position of the first occurrence of `a` in `l` (the length of `l` when there is
none). -/
def indexIn {α : Type} [DecidableEq α] (l : List α) (a : α) : Nat :=
  l.indexOf a

/-- Appends `q` to `pts` unless it is already there: the effect of `addPoint` on the
points list, used to state what `generate` leaves in it. -/
def pushNew (pts : List (Int × Int)) (q : Int × Int) : List (Int × Int) :=
  if q ∈ pts then pts else pts ++ [q]

/-! ## Notions used in the statements -/

/-- The points list `acc` holds each element of `done` once, in order of first occurrence
in `done`. -/
def FirstOccurrences (acc done : List (Int × Int)) : Prop :=
  acc.Nodup ∧ (∀ p, p ∈ acc ↔ p ∈ done) ∧
    acc.Pairwise (fun a b => indexIn done a < indexIn done b)

/-- The portals found for the consecutive pairs of a chain, in chain order: the result of
the search of `findPortal` for each pair that has one, nothing for a pair that has none. -/
def pairPortals (linesEqual : Line → Line → Bool) (polygons : List NavMeshPolygon) :
    List Line :=
  (polygons.zip polygons.tail).filterMap (fun ab => AStarPath.findPortal linesEqual ab.1 ab.2)

instance (linesEqual : Line → Line → Bool) (a b : NavMeshPolygon) :
    Decidable (SharePortal linesEqual a b) :=
  inferInstanceAs (Decidable (∃ q ∈ a.portals, ∃ p ∈ b.portals, linesEqual p q = true))

/-! ## Example data -/

/-- A triangulation step that returns no result. -/
def cdt2dNull : List (Int × Int) → List (Nat × Nat) → Unit → Option (List (List Nat)) :=
  fun _ _ _ => none

/-- A triangulation step that returns the single triangle on the first three vertices. -/
def cdt2dFirst : List (Int × Int) → List (Nat × Nat) → Unit → Option (List (List Nat)) :=
  fun _ _ _ => some [[0, 1, 2]]

/-- Own boundary edges of a sample region: a triangle given as a closed loop. -/
def sampleEdges : List Line :=
  [⟨⟨0, 0⟩, ⟨4, 0⟩⟩, ⟨⟨4, 0⟩, ⟨0, 4⟩⟩, ⟨⟨0, 4⟩, ⟨0, 0⟩⟩]

/-- Parent edges of the sample region. -/
def sampleParentEdges : List Line :=
  [⟨⟨0, 0⟩, ⟨9, 0⟩⟩]

/-- Child edges of the sample region. -/
def sampleChildEdges : List Line :=
  [⟨⟨1, 1⟩, ⟨2, 1⟩⟩, ⟨⟨2, 1⟩, ⟨1, 1⟩⟩]

/-! ## Example corridor -/

/-- The triangle (0,0), (2,0), (0,2): the origin triangle of the sample corridor. -/
def triangleA : NavMeshPolygon :=
  { portals := [⟨⟨2, 0⟩, ⟨0, 2⟩⟩] }

/-- The triangle (2,0), (2,2), (0,2), between `triangleA` and `triangleC`. -/
def triangleB : NavMeshPolygon :=
  { portals := [⟨⟨0, 2⟩, ⟨2, 0⟩⟩, ⟨⟨2, 0⟩, ⟨2, 2⟩⟩] }

/-- The triangle (2,0), (4,0), (2,2): the destination triangle of the sample corridor. -/
def triangleC : NavMeshPolygon :=
  { portals := [⟨⟨2, 2⟩, ⟨2, 0⟩⟩] }

/-- Options of a path request from (1,0) in `triangleA` to (3,1) in `triangleC`. -/
def sampleOptions : AStarPathOptions :=
  { startPoint := ⟨1, 0⟩, endPoint := ⟨3, 1⟩, startPolygon := triangleA,
    endPolygon := triangleC, isConnected := true, midPointThreshold := 0 }

/-- An `AStarPath` object holding the sample corridor, destination first, before
`initPortals` has run. -/
def samplePath : AStarPath (Int × List FunnelCall) :=
  { polygons := [triangleC, triangleB, triangleA], isConnected := true,
    midPointThreshold := 0, startPoint := ⟨1, 0⟩, endPoint := ⟨3, 1⟩,
    startPolygon := triangleA, endPolygon := triangleC, portals := [], funnel := none }

/-! ## `initPortals` with arrays held by reference

`initPortals` creates the array `this.portals`, pushes onto it and reverses it in place,
while the polygons own their `portals` arrays. To tell which arrays an in-place update can
reach, the arrays of lines are kept here in a store and named by their position in
it. -/

/-- The arrays of lines that exist at some moment; a reference to an array is its position
in the store. -/
abbrev ArrayStore := List (List Line)

/-- The contents of the array with reference `ref`. -/
def ArrayStore.read (store : ArrayStore) (ref : Nat) : List Line :=
  (store[ref]?).getD []

namespace ByReference

/-- A polygon whose `portals` field is a reference to an array of the store. -/
structure NavMeshPolygon where
  portals : Nat
  deriving DecidableEq, Repr

/-- The fields of an `AStarPath` object that `initPortals` reads or writes; `portals` is a
reference to an array of the store. -/
structure AStarPath where
  polygons : List NavMeshPolygon
  portals : Nat
  deriving DecidableEq, Repr

/-- The body of the `for` loop of `initPortals` at index `i`; `portals` is the reference
held by `this.portals`, and `push` replaces the contents of that array. -/
def initPortalsStep (linesEqual : Line → Line → Bool) (polygons : List NavMeshPolygon)
    (portals : Nat) (store : ArrayStore) (i : Nat) : ArrayStore :=
  match polygons[i]?, polygons[i + 1]? with
  | some node, some nextNode =>
    match Navmesh.AStarPath.findPortal linesEqual ⟨store.read node.portals⟩
        ⟨store.read nextNode.portals⟩ with
    | some portal => store.set portals (store.read portals ++ [portal])
    | none => store
  | _, _ => store

/-- The method `initPortals()`: `this.portals = []` adds a new, empty array to the store,
and `this.portals.reverse()` replaces the contents of that array. -/
def initPortals (linesEqual : Line → Line → Bool) (store : ArrayStore) (self : AStarPath) :
    ArrayStore × AStarPath :=
  let polygons := self.polygons
  let length := polygons.length
  let portals := store.length
  let store := store ++ [[]]
  let store := (List.range length).foldl (initPortalsStep linesEqual polygons portals) store
  let store := store.set portals (store.read portals).reverse
  (store, { self with portals := portals })

/-- The polygons of a chain with their portals arrays read from the store. -/
def deref (store : ArrayStore) (polygons : List NavMeshPolygon) :
    List Navmesh.NavMeshPolygon :=
  polygons.map (fun p => ⟨store.read p.portals⟩)

end ByReference

/-- A store holding the portals arrays of `triangleA`, `triangleB` and `triangleC`. -/
def sampleStore : ArrayStore :=
  [triangleA.portals, triangleB.portals, triangleC.portals]

/-- The sample corridor, destination first, over `sampleStore`; `this.portals` refers to
the array of `triangleA` to begin with. -/
def samplePathByRef : ByReference.AStarPath :=
  { polygons := [⟨2⟩, ⟨1⟩, ⟨0⟩], portals := 0 }

/-! # Proofs -/

/-! ## Facts about `findIndex` -/

theorem findIndex_eq_none_iff {α : Type} (p : α → Bool) (l : List α) :
    findIndex p l = none ↔ ∀ a ∈ l, p a = false := by
  induction l with
  | nil => simp [findIndex]
  | cons a as ih =>
    by_cases h : p a = true
    · simp [findIndex, h]
    · simp [findIndex, h, ih]

theorem findIndex_eq_indexOf (q : Int × Int) (l : List (Int × Int)) (i : Nat)
    (h : findIndex (fun p => p.1 == q.1 && p.2 == q.2) l = some i) :
    q ∈ l ∧ indexIn l q = i := by
  unfold indexIn
  induction l generalizing i with
  | nil => simp [findIndex] at h
  | cons b bs ih =>
    by_cases hb : b = q
    · subst hb
      simp [findIndex] at h
      simp [← h]
    · have hb' : (b.1 == q.1 && b.2 == q.2) = false := by
        rcases b with ⟨b1, b2⟩
        rcases q with ⟨q1, q2⟩
        simp only [Bool.and_eq_false_iff, beq_eq_false_iff_ne, ne_eq]
        by_contra hc
        push_neg at hc
        exact hb (by rw [hc.1, hc.2])
      simp only [findIndex, hb', Bool.false_eq_true, if_false, Option.map_eq_some'] at h
      obtain ⟨j, hj, rfl⟩ := h
      obtain ⟨hm, hi⟩ := ih j hj
      refine ⟨List.mem_cons_of_mem _ hm, ?_⟩
      rw [List.indexOf_cons_ne _ hb, hi]

theorem findIndex_none_not_mem (q : Int × Int) (l : List (Int × Int))
    (h : findIndex (fun p => p.1 == q.1 && p.2 == q.2) l = none) : q ∉ l := by
  intro hm
  have := (findIndex_eq_none_iff _ _).1 h q hm
  simp at this

/-! ## Facts about `addPoint` -/

namespace DelaunayCluster

variable {Opt : Type}

theorem addPoint_eq (self : DelaunayCluster Opt) (x y : Int) :
    self.addPoint x y =
      (indexIn (pushNew self.points (x * self.tileWidth, y * self.tileHeight))
          (x * self.tileWidth, y * self.tileHeight),
        { self with points := pushNew self.points (x * self.tileWidth, y * self.tileHeight) })
    := by
  unfold addPoint
  cases h : findIndex (fun p => p.1 == x * self.tileWidth && p.2 == y * self.tileHeight)
      self.points with
  | some i =>
    obtain ⟨hm, hi⟩ := findIndex_eq_indexOf (x * self.tileWidth, y * self.tileHeight) _ i h
    simp [pushNew, hm, hi]
  | none =>
    have hm := findIndex_none_not_mem (x * self.tileWidth, y * self.tileHeight) _ h
    simp [pushNew, hm, indexIn, List.indexOf_append_of_not_mem hm]

theorem addEdgeToPoints_eq (self : DelaunayCluster Opt) (edge : Line) :
    self.addEdgeToPoints edge =
      ((indexIn (pushNew self.points (scalePoint self.tileWidth self.tileHeight edge.start))
            (scalePoint self.tileWidth self.tileHeight edge.start),
        indexIn (pushNew (pushNew self.points
              (scalePoint self.tileWidth self.tileHeight edge.start))
              (scalePoint self.tileWidth self.tileHeight edge.end_))
            (scalePoint self.tileWidth self.tileHeight edge.end_)),
        { self with
          points := pushNew (pushNew self.points
            (scalePoint self.tileWidth self.tileHeight edge.start))
            (scalePoint self.tileWidth self.tileHeight edge.end_) }) := by
  simp only [addEdgeToPoints, addPoint_eq, scalePoint]

end DelaunayCluster

/-! ## Facts about `pushNew` -/

theorem mem_pushNew (pts : List (Int × Int)) (q p : Int × Int) :
    p ∈ pushNew pts q ↔ p ∈ pts ∨ p = q := by
  unfold pushNew
  split
  · constructor
    · intro h; exact Or.inl h
    · rintro (h | rfl)
      · exact h
      · assumption
  · simp

theorem pushNew_extends (pts : List (Int × Int)) (q : Int × Int) :
    pts <+: pushNew pts q := by
  unfold pushNew
  split
  · exact List.prefix_refl _
  · exact List.prefix_append _ _

theorem foldl_pushNew_extends (l pts : List (Int × Int)) :
    pts <+: l.foldl pushNew pts := by
  induction l generalizing pts with
  | nil => exact List.prefix_refl _
  | cons a as ih => exact (pushNew_extends pts a).trans (ih _)

theorem indexIn_of_extends {α : Type} [DecidableEq α] {l₁ l₂ : List α} {a : α}
    (h : l₁ <+: l₂) (ha : a ∈ l₁) : indexIn l₂ a = indexIn l₁ a := by
  obtain ⟨t, rfl⟩ := h
  exact List.indexOf_append_of_mem ha

theorem getElem?_of_extends {α : Type} {l₁ l₂ : List α} {a : α} {i : Nat}
    (h : l₁ <+: l₂) (ha : l₁[i]? = some a) : l₂[i]? = some a := by
  obtain ⟨t, rfl⟩ := h
  have hi : i < l₁.length := by
    by_contra hc
    rw [List.getElem?_eq_none (Nat.le_of_not_lt hc)] at ha
    exact Option.noConfusion ha
  rw [List.getElem?_append_left hi]
  exact ha

theorem FirstOccurrences.pushNew {acc done : List (Int × Int)} (q : Int × Int)
    (h : FirstOccurrences acc done) : FirstOccurrences (pushNew acc q) (done ++ [q]) := by
  obtain ⟨hn, hm, hp⟩ := h
  have hidx : ∀ a, a ∈ acc → indexIn (done ++ [q]) a = indexIn done a := fun a ha =>
    indexIn_of_extends (List.prefix_append _ _) ((hm a).1 ha)
  have hp' : acc.Pairwise (fun a b => indexIn (done ++ [q]) a < indexIn (done ++ [q]) b) :=
    hp.imp_of_mem (fun {a b} ha hb hab => by rw [hidx a ha, hidx b hb]; exact hab)
  by_cases hq : q ∈ acc
  · have : Navmesh.pushNew acc q = acc := by simp [Navmesh.pushNew, hq]
    rw [this]
    refine ⟨hn, fun p => ?_, hp'⟩
    rw [hm p, List.mem_append, List.mem_singleton]
    constructor
    · exact Or.inl
    · rintro (h | rfl)
      · exact h
      · exact (hm _).1 hq
  · have : Navmesh.pushNew acc q = acc ++ [q] := by simp [Navmesh.pushNew, hq]
    rw [this]
    have hqd : q ∉ done := fun hc => hq ((hm q).2 hc)
    refine ⟨?_, fun p => ?_, ?_⟩
    · rw [List.nodup_append]
      refine ⟨hn, List.nodup_singleton q, ?_⟩
      intro a ha hb
      rw [List.mem_singleton] at hb
      exact hq (hb ▸ ha)
    · simp only [List.mem_append, List.mem_singleton, hm p]
    · rw [List.pairwise_append]
      refine ⟨hp', List.pairwise_singleton _ _, ?_⟩
      intro a ha b hb
      rw [List.mem_singleton] at hb
      subst hb
      rw [hidx a ha]
      have h1 : indexIn done a < done.length := List.indexOf_lt_length.2 ((hm a).1 ha)
      have h2 : indexIn (done ++ [b]) b = done.length := by
        unfold indexIn
        rw [List.indexOf_append_of_not_mem hqd]
        simp
      omega

theorem FirstOccurrences.foldl (l : List (Int × Int)) {acc done : List (Int × Int)}
    (h : FirstOccurrences acc done) :
    FirstOccurrences (l.foldl Navmesh.pushNew acc) (done ++ l) := by
  induction l generalizing acc done with
  | nil => simpa using h
  | cons a as ih =>
    have := ih (h.pushNew a)
    simpa using this

theorem firstOccurrences_nil : FirstOccurrences [] [] :=
  ⟨List.nodup_nil, fun _ => Iff.rfl, List.Pairwise.nil⟩

/-! ## The passes of `generate` -/

namespace DelaunayCluster

variable {Opt : Type}

theorem scaledEndpoints_cons (tw th : Int) (e : Line) (es : List Line) :
    scaledEndpoints tw th (e :: es) =
      scalePoint tw th e.start :: scalePoint tw th e.end_ :: scaledEndpoints tw th es := by
  simp [scaledEndpoints]

theorem scaledEndpoints_append (tw th : Int) (es fs : List Line) :
    scaledEndpoints tw th (es ++ fs) = scaledEndpoints tw th es ++ scaledEndpoints tw th fs := by
  simp [scaledEndpoints]

theorem foldl_addEdgeToPoints (es : List Line) (self : DelaunayCluster Opt) :
    es.foldl (fun st edge => (st.addEdgeToPoints edge).2) self =
      { self with
        points := (scaledEndpoints self.tileWidth self.tileHeight es).foldl pushNew
          self.points } := by
  induction es generalizing self with
  | nil => simp [scaledEndpoints]
  | cons e es ih =>
    rw [List.foldl_cons, ih, addEdgeToPoints_eq, scaledEndpoints_cons]
    simp

theorem foldl_addEdgeAndPush (es : List Line) (self : DelaunayCluster Opt) :
    es.foldl addEdgeAndPush self =
      { self with
        points := (scaledEndpoints self.tileWidth self.tileHeight es).foldl pushNew
          self.points
        edges := self.edges ++ es.map (fun e =>
          (indexIn ((scaledEndpoints self.tileWidth self.tileHeight es).foldl pushNew
              self.points) (scalePoint self.tileWidth self.tileHeight e.start),
            indexIn ((scaledEndpoints self.tileWidth self.tileHeight es).foldl pushNew
              self.points) (scalePoint self.tileWidth self.tileHeight e.end_))) } := by
  induction es generalizing self with
  | nil => simp [scaledEndpoints]
  | cons e es ih =>
    rw [List.foldl_cons, ih]
    simp only [addEdgeAndPush, addEdgeToPoints_eq, scaledEndpoints_cons, List.foldl_cons,
      List.map_cons, List.append_assoc, List.singleton_append]
    have h1 : scalePoint self.tileWidth self.tileHeight e.start ∈
        pushNew self.points (scalePoint self.tileWidth self.tileHeight e.start) :=
      (mem_pushNew _ _ _).2 (Or.inr rfl)
    have h2 : scalePoint self.tileWidth self.tileHeight e.end_ ∈
        pushNew (pushNew self.points (scalePoint self.tileWidth self.tileHeight e.start))
          (scalePoint self.tileWidth self.tileHeight e.end_) :=
      (mem_pushNew _ _ _).2 (Or.inr rfl)
    have p12 := pushNew_extends
      (pushNew self.points (scalePoint self.tileWidth self.tileHeight e.start))
      (scalePoint self.tileWidth self.tileHeight e.end_)
    have p2 := foldl_pushNew_extends (scaledEndpoints self.tileWidth self.tileHeight es)
      (pushNew (pushNew self.points (scalePoint self.tileWidth self.tileHeight e.start))
        (scalePoint self.tileWidth self.tileHeight e.end_))
    rw [indexIn_of_extends (p12.trans p2) h1, indexIn_of_extends p2 h2]

theorem mem_foldl_pushNew (l acc : List (Int × Int)) (p : Int × Int) :
    p ∈ l.foldl pushNew acc ↔ p ∈ acc ∨ p ∈ l := by
  induction l generalizing acc with
  | nil => simp
  | cons a as ih =>
    rw [List.foldl_cons, ih, mem_pushNew, List.mem_cons]
    tauto

theorem start_mem_scaledEndpoints (tw th : Int) {e : Line} {es : List Line} (h : e ∈ es) :
    scalePoint tw th e.start ∈ scaledEndpoints tw th es := by
  simp only [scaledEndpoints, List.mem_flatMap]
  exact ⟨e, h, by simp⟩

theorem end_mem_scaledEndpoints (tw th : Int) {e : Line} {es : List Line} (h : e ∈ es) :
    scalePoint tw th e.end_ ∈ scaledEndpoints tw th es := by
  simp only [scaledEndpoints, List.mem_flatMap]
  exact ⟨e, h, by simp⟩

theorem construct_points
    (cdt2d : List (Int × Int) → List (Nat × Nat) → Opt → Option (List (List Nat)))
    (edges parentEdges allChildEdges : List Line) (tileWidth tileHeight : Int)
    (options : Opt) :
    (construct cdt2d edges parentEdges allChildEdges tileWidth tileHeight options).points =
      (scaledEndpoints tileWidth tileHeight (parentEdges ++ allChildEdges ++ edges)).foldl
        pushNew [] := by
  simp [construct, generate, foldl_addEdgeToPoints, foldl_addEdgeAndPush,
    scaledEndpoints_append, List.foldl_append]

theorem construct_edges
    (cdt2d : List (Int × Int) → List (Nat × Nat) → Opt → Option (List (List Nat)))
    (edges parentEdges allChildEdges : List Line) (tileWidth tileHeight : Int)
    (options : Opt) :
    (construct cdt2d edges parentEdges allChildEdges tileWidth tileHeight options).edges =
      (allChildEdges ++ edges).map (fun e =>
        (indexIn
          (construct cdt2d edges parentEdges allChildEdges tileWidth tileHeight
            options).points (scalePoint tileWidth tileHeight e.start),
         indexIn
          (construct cdt2d edges parentEdges allChildEdges tileWidth tileHeight
            options).points (scalePoint tileWidth tileHeight e.end_))) := by
  rw [construct_points]
  simp only [construct, generate, foldl_addEdgeToPoints, foldl_addEdgeAndPush,
    scaledEndpoints_append, List.foldl_append, List.nil_append, List.map_append]
  congr 1
  apply List.map_congr_left
  intro e he
  have hs := (mem_foldl_pushNew (scaledEndpoints tileWidth tileHeight allChildEdges)
    (List.foldl pushNew [] (scaledEndpoints tileWidth tileHeight parentEdges)) _).2
    (Or.inr (start_mem_scaledEndpoints tileWidth tileHeight he))
  have hE := (mem_foldl_pushNew (scaledEndpoints tileWidth tileHeight allChildEdges)
    (List.foldl pushNew [] (scaledEndpoints tileWidth tileHeight parentEdges)) _).2
    (Or.inr (end_mem_scaledEndpoints tileWidth tileHeight he))
  have hp := foldl_pushNew_extends (scaledEndpoints tileWidth tileHeight edges)
    (List.foldl pushNew (List.foldl pushNew [] (scaledEndpoints tileWidth tileHeight
      parentEdges)) (scaledEndpoints tileWidth tileHeight allChildEdges))
  rw [indexIn_of_extends hp hs, indexIn_of_extends hp hE]

theorem construct_firstOccurrences
    (cdt2d : List (Int × Int) → List (Nat × Nat) → Opt → Option (List (List Nat)))
    (edges parentEdges allChildEdges : List Line) (tileWidth tileHeight : Int)
    (options : Opt) :
    FirstOccurrences
      (construct cdt2d edges parentEdges allChildEdges tileWidth tileHeight options).points
      (scaledEndpoints tileWidth tileHeight (parentEdges ++ allChildEdges ++ edges)) := by
  rw [construct_points]
  have h := FirstOccurrences.foldl
    (scaledEndpoints tileWidth tileHeight (parentEdges ++ allChildEdges ++ edges))
    firstOccurrences_nil
  rw [List.nil_append] at h
  exact h

end DelaunayCluster

/-! ## DelaunayCluster: the claims -/

/-- C5: for every builder state and every coordinate pair, calling `addPoint(x, y)` twice
in a row returns the same index both times, and the second call leaves the points list
(indeed the whole object) as the first call left it. -/
theorem C5_addPoint_twice_same_index {Opt : Type} (self : DelaunayCluster Opt) (x y : Int) :
    ((self.addPoint x y).2.addPoint x y).1 = (self.addPoint x y).1 ∧
    ((self.addPoint x y).2.addPoint x y).2.points = (self.addPoint x y).2.points ∧
    ((self.addPoint x y).2.addPoint x y).2 = (self.addPoint x y).2 := by
  have hm : (x * self.tileWidth, y * self.tileHeight) ∈
      pushNew self.points (x * self.tileWidth, y * self.tileHeight) :=
    (mem_pushNew _ _ _).2 (Or.inr rfl)
  have hp : pushNew (pushNew self.points (x * self.tileWidth, y * self.tileHeight))
      (x * self.tileWidth, y * self.tileHeight) =
      pushNew self.points (x * self.tileWidth, y * self.tileHeight) := by
    exact if_pos hm
  simp only [DelaunayCluster.addPoint_eq, hp, and_self]

/-- C6: after construction the points list has no two equal entries, it holds exactly the
scaled endpoints of all input edges (parent, child and own), and its entries stand in order
of first occurrence in the scan parent, child, own, start before end. -/
theorem C6_points_are_deduplicated_scaled_endpoints {Opt : Type}
    (cdt2d : List (Int × Int) → List (Nat × Nat) → Opt → Option (List (List Nat)))
    (edges parentEdges allChildEdges : List Line) (tileWidth tileHeight : Int)
    (options : Opt) :
    (DelaunayCluster.construct cdt2d edges parentEdges allChildEdges tileWidth tileHeight
      options).points.Nodup ∧
    (∀ p, p ∈ (DelaunayCluster.construct cdt2d edges parentEdges allChildEdges tileWidth
        tileHeight options).points ↔
      p ∈ scaledEndpoints tileWidth tileHeight (parentEdges ++ allChildEdges ++ edges)) ∧
    (DelaunayCluster.construct cdt2d edges parentEdges allChildEdges tileWidth tileHeight
      options).points.Pairwise (fun a b =>
        indexIn (scaledEndpoints tileWidth tileHeight
          (parentEdges ++ allChildEdges ++ edges)) a <
        indexIn (scaledEndpoints tileWidth tileHeight
          (parentEdges ++ allChildEdges ++ edges)) b) := by
  exact DelaunayCluster.construct_firstOccurrences cdt2d edges parentEdges allChildEdges
    tileWidth tileHeight options

/-- C7: when the triangulation step returns no result on the deduplicated points and the
constraint edges, construction completes and `polygons` is the empty list. -/
theorem C7_null_triangulation_gives_no_polygons {Opt : Type}
    (cdt2d : List (Int × Int) → List (Nat × Nat) → Opt → Option (List (List Nat)))
    (edges parentEdges allChildEdges : List Line) (tileWidth tileHeight : Int)
    (options : Opt)
    (h : cdt2d
      (DelaunayCluster.construct cdt2d edges parentEdges allChildEdges tileWidth tileHeight
        options).points
      (DelaunayCluster.construct cdt2d edges parentEdges allChildEdges tileWidth tileHeight
        options).edges options = none) :
    (DelaunayCluster.construct cdt2d edges parentEdges allChildEdges tileWidth tileHeight
      options).polygons = [] := by
  simp only [DelaunayCluster.construct, DelaunayCluster.generate,
    DelaunayCluster.foldl_addEdgeToPoints, DelaunayCluster.foldl_addEdgeAndPush] at h ⊢
  rw [h]
  rfl

/-- Witness of C7 on the sample region with a triangulation step that returns nothing. -/
theorem C7_null_triangulation_witness :
    cdt2dNull
      (DelaunayCluster.construct cdt2dNull sampleEdges sampleParentEdges sampleChildEdges 2 3
        ()).points
      (DelaunayCluster.construct cdt2dNull sampleEdges sampleParentEdges sampleChildEdges 2 3
        ()).edges () = none ∧
    (DelaunayCluster.construct cdt2dNull sampleEdges sampleParentEdges sampleChildEdges 2 3
      ()).polygons = [] :=
  ⟨rfl, C7_null_triangulation_gives_no_polygons cdt2dNull sampleEdges sampleParentEdges
    sampleChildEdges 2 3 () rfl⟩

/-- C2, as stated, fails: with one parent edge and no other edge the constructed object
has no constraint edge at all, not `|parentEdges| + |allChildEdges| + |edges| = 1`. -/
theorem C2_parent_edges_not_recorded :
    (DelaunayCluster.construct cdt2dNull [] sampleParentEdges [] 2 3 ()).edges = [] ∧
    (DelaunayCluster.construct cdt2dNull [] sampleParentEdges [] 2 3 ()).edges.length ≠
      sampleParentEdges.length + ([] : List Line).length + ([] : List Line).length := by
  decide

/-- C2, amended: `generate` records one constraint edge for every child edge and then for
every own boundary edge, and none for a parent edge. The edges list has length
`|allChildEdges| + |edges|`, and its `k`-th entry is the pair of the positions, in the
final points list, of the scaled start and the scaled end of the `k`-th edge of the child
edges followed by the own edges. -/
theorem C2_constraint_edges_of_child_and_own {Opt : Type}
    (cdt2d : List (Int × Int) → List (Nat × Nat) → Opt → Option (List (List Nat)))
    (edges parentEdges allChildEdges : List Line) (tileWidth tileHeight : Int)
    (options : Opt) :
    (DelaunayCluster.construct cdt2d edges parentEdges allChildEdges tileWidth tileHeight
      options).edges.length = allChildEdges.length + edges.length ∧
    ∀ (k : Nat) (e : Line), (allChildEdges ++ edges)[k]? = some e →
      (DelaunayCluster.construct cdt2d edges parentEdges allChildEdges tileWidth tileHeight
        options).edges[k]? =
      some
        (indexIn
          (DelaunayCluster.construct cdt2d edges parentEdges allChildEdges tileWidth
            tileHeight options).points (scalePoint tileWidth tileHeight e.start),
         indexIn
          (DelaunayCluster.construct cdt2d edges parentEdges allChildEdges tileWidth
            tileHeight options).points (scalePoint tileWidth tileHeight e.end_)) := by
  refine ⟨?_, fun k e hk => ?_⟩
  · rw [DelaunayCluster.construct_edges, List.length_map, List.length_append]
  · rw [DelaunayCluster.construct_edges, List.getElem?_map, hk]
    rfl

/-- Witness of the amended C2: the first own edge of the sample region is the third
recorded constraint edge, after the two child edges. -/
theorem C2_constraint_edges_witness :
    (sampleChildEdges ++ sampleEdges)[2]? = some ⟨⟨0, 0⟩, ⟨4, 0⟩⟩ ∧
    (DelaunayCluster.construct cdt2dNull sampleEdges sampleParentEdges sampleChildEdges 2 3
      ()).edges[2]? =
    some
      (indexIn
        (DelaunayCluster.construct cdt2dNull sampleEdges sampleParentEdges sampleChildEdges
          2 3 ()).points (scalePoint 2 3 ⟨0, 0⟩),
       indexIn
        (DelaunayCluster.construct cdt2dNull sampleEdges sampleParentEdges sampleChildEdges
          2 3 ()).points (scalePoint 2 3 ⟨4, 0⟩)) :=
  ⟨by decide,
    (C2_constraint_edges_of_child_and_own cdt2dNull sampleEdges sampleParentEdges
      sampleChildEdges 2 3 ()).2 2 ⟨⟨0, 0⟩, ⟨4, 0⟩⟩ (by decide)⟩

/-- C10: after construction every recorded constraint edge `[i, j]`, the `k`-th say, has
`i` and `j` within the bounds of the points list, and `points[i]` and `points[j]` are the
scaled start and the scaled end of the input edge it was recorded for (the `k`-th of the
child edges followed by the own edges). The index `addPoint` returns denotes the scaled
point, and `addPoint` keeps every existing entry of the points list at its index. -/
theorem C10_constraint_edges_index_scaled_endpoints {Opt : Type}
    (cdt2d : List (Int × Int) → List (Nat × Nat) → Opt → Option (List (List Nat)))
    (edges parentEdges allChildEdges : List Line) (tileWidth tileHeight : Int)
    (options : Opt) :
    (∀ (k i j : Nat),
      (DelaunayCluster.construct cdt2d edges parentEdges allChildEdges tileWidth tileHeight
        options).edges[k]? = some (i, j) →
      ∃ e : Line, (allChildEdges ++ edges)[k]? = some e ∧
        i < (DelaunayCluster.construct cdt2d edges parentEdges allChildEdges tileWidth
          tileHeight options).points.length ∧
        j < (DelaunayCluster.construct cdt2d edges parentEdges allChildEdges tileWidth
          tileHeight options).points.length ∧
        (DelaunayCluster.construct cdt2d edges parentEdges allChildEdges tileWidth
          tileHeight options).points[i]? = some (scalePoint tileWidth tileHeight e.start) ∧
        (DelaunayCluster.construct cdt2d edges parentEdges allChildEdges tileWidth
          tileHeight options).points[j]? = some (scalePoint tileWidth tileHeight e.end_)) ∧
    (∀ (self : DelaunayCluster Opt) (x y : Int),
      (self.addPoint x y).2.points[(self.addPoint x y).1]? =
        some (x * self.tileWidth, y * self.tileHeight)) ∧
    (∀ (self : DelaunayCluster Opt) (x y : Int) (n : Nat) (q : Int × Int),
      self.points[n]? = some q → (self.addPoint x y).2.points[n]? = some q) := by
  refine ⟨fun k i j hk => ?_, fun self x y => ?_, fun self x y n q hn => ?_⟩
  · rw [DelaunayCluster.construct_edges, List.getElem?_map] at hk
    cases he : (allChildEdges ++ edges)[k]? with
    | none => rw [he] at hk; exact Option.noConfusion hk
    | some e =>
      rw [he] at hk
      simp only [Option.map_some', Option.some.injEq, Prod.mk.injEq] at hk
      obtain ⟨hi, hj⟩ := hk
      have hmem : e ∈ parentEdges ++ allChildEdges ++ edges := by
        have := List.getElem?_mem he
        simp only [List.mem_append] at this ⊢
        tauto
      have hC6 := (DelaunayCluster.construct_firstOccurrences cdt2d edges parentEdges
        allChildEdges tileWidth tileHeight options).2.1
      have hs := (hC6 _).2 (DelaunayCluster.start_mem_scaledEndpoints tileWidth tileHeight hmem)
      have hE := (hC6 _).2 (DelaunayCluster.end_mem_scaledEndpoints tileWidth tileHeight hmem)
      refine ⟨e, rfl, ?_, ?_, ?_, ?_⟩
      · rw [← hi]; exact List.indexOf_lt_length.2 hs
      · rw [← hj]; exact List.indexOf_lt_length.2 hE
      · rw [← hi]; exact List.getElem?_indexOf hs
      · rw [← hj]; exact List.getElem?_indexOf hE
  · rw [DelaunayCluster.addPoint_eq]
    exact List.getElem?_indexOf ((mem_pushNew _ _ _).2 (Or.inr rfl))
  · rw [DelaunayCluster.addPoint_eq]
    exact getElem?_of_extends (pushNew_extends _ _) hn

/-! ## AStarPath: the loop of `initPortals` -/

theorem pairPortals_cons_cons (linesEqual : Line → Line → Bool) (a b : NavMeshPolygon)
    (t : List NavMeshPolygon) :
    pairPortals linesEqual (a :: b :: t) =
      (AStarPath.findPortal linesEqual a b).toList ++ pairPortals linesEqual (b :: t) := by
  unfold pairPortals
  cases h : AStarPath.findPortal linesEqual a b <;> simp [h]

theorem pairPortals_singleton (linesEqual : Line → Line → Bool) (a : NavMeshPolygon) :
    pairPortals linesEqual [a] = [] := by
  simp [pairPortals]

theorem foldl_initPortalsStep (linesEqual : Line → Line → Bool)
    (suf pre : List NavMeshPolygon) (acc : List Line) :
    (List.range' pre.length suf.length).foldl
        (AStarPath.initPortalsStep linesEqual (pre ++ suf)) acc =
      acc ++ pairPortals linesEqual suf := by
  induction suf generalizing pre acc with
  | nil => simp [pairPortals]
  | cons a t ih =>
    rw [List.length_cons, List.range'_succ, List.foldl_cons]
    have ha : (pre ++ a :: t)[pre.length]? = some a := by
      rw [List.getElem?_append_right (Nat.le_refl _)]
      simp
    have hpre : pre ++ a :: t = (pre ++ [a]) ++ t := by simp
    have hlen : pre.length + 1 = (pre ++ [a]).length := by simp
    cases t with
    | nil =>
      have hb : (pre ++ [a])[pre.length + 1]? = none := by simp
      simp [AStarPath.initPortalsStep, ha, hb, pairPortals_singleton]
    | cons b t' =>
      have hb : (pre ++ a :: b :: t')[pre.length + 1]? = some b := by
        rw [hpre, hlen, List.getElem?_append_right (Nat.le_refl _)]
        simp
      have hstep : AStarPath.initPortalsStep linesEqual (pre ++ a :: b :: t') acc pre.length =
          acc ++ (AStarPath.findPortal linesEqual a b).toList := by
        unfold AStarPath.initPortalsStep
        rw [ha, hb]
        cases hf : AStarPath.findPortal linesEqual a b <;> simp [hf]
      rw [hstep, hpre, hlen, ih (pre ++ [a]), pairPortals_cons_cons, List.append_assoc]

theorem initPortals_portals {F : Type} (linesEqual : Line → Line → Bool)
    (self : AStarPath F) :
    (self.initPortals linesEqual).portals = (pairPortals linesEqual self.polygons).reverse := by
  have h := foldl_initPortalsStep linesEqual self.polygons [] []
  simp only [List.length_nil, List.nil_append] at h
  simp only [AStarPath.initPortals, List.range_eq_range', h]

/-! ## Facts about `findPortal` and `pairPortals` -/

theorem findPortal_isFirstShared (linesEqual : Line → Line → Bool) (a b : NavMeshPolygon)
    (q : Line) (h : AStarPath.findPortal linesEqual a b = some q) :
    IsFirstShared linesEqual a b q := by
  unfold AStarPath.findPortal at h
  rw [List.find?_eq_some] at h
  obtain ⟨hq, before, after, hsplit, hbefore⟩ := h
  refine ⟨before, after, hsplit, ?_, ?_⟩
  · rw [List.find?_isSome] at hq
    obtain ⟨p, hp, hpq⟩ := hq
    exact ⟨p, hp, hpq⟩
  · intro q' hq' p hp
    have hn := hbefore q' hq'
    by_contra hc
    have hsome : ((b.portals.find? (fun p => linesEqual p q')).isSome) = true := by
      rw [List.find?_isSome]
      exact ⟨p, hp, by simpa using hc⟩
    rw [hsome] at hn
    exact absurd hn (by decide)

theorem findPortal_eq_none_iff (linesEqual : Line → Line → Bool) (a b : NavMeshPolygon) :
    AStarPath.findPortal linesEqual a b = none ↔ ¬ SharePortal linesEqual a b := by
  unfold AStarPath.findPortal SharePortal
  rw [List.find?_eq_none]
  constructor
  · rintro h ⟨q, hq, p, hp, hpq⟩
    apply h q hq
    rw [List.find?_isSome]
    exact ⟨p, hp, hpq⟩
  · intro h q hq hsome
    rw [List.find?_isSome] at hsome
    obtain ⟨p, hp, hpq⟩ := hsome
    exact h ⟨q, hq, p, hp, hpq⟩

theorem findPortal_of_share (linesEqual : Line → Line → Bool) (a b : NavMeshPolygon)
    (h : SharePortal linesEqual a b) : ∃ q, AStarPath.findPortal linesEqual a b = some q := by
  cases hf : AStarPath.findPortal linesEqual a b with
  | none => exact absurd h ((findPortal_eq_none_iff linesEqual a b).1 hf)
  | some q => exact ⟨q, rfl⟩

theorem pairPortals_length_le (linesEqual : Line → Line → Bool)
    (l : List NavMeshPolygon) : (pairPortals linesEqual l).length ≤ l.length - 1 := by
  unfold pairPortals
  refine (List.length_filterMap_le _ _).trans ?_
  simp

theorem pairPortals_getElem? (linesEqual : Line → Line → Bool) (l : List NavMeshPolygon)
    (hall : ∀ (i : Nat) (a b : NavMeshPolygon), l[i]? = some a → l[i + 1]? = some b →
      SharePortal linesEqual a b)
    (i : Nat) (a b : NavMeshPolygon) (ha : l[i]? = some a) (hb : l[i + 1]? = some b) :
    (pairPortals linesEqual l)[i]? = AStarPath.findPortal linesEqual a b := by
  induction l generalizing i with
  | nil => simp at ha
  | cons a0 t ih =>
    cases t with
    | nil => simp at hb
    | cons b0 t' =>
      obtain ⟨q, hq⟩ := findPortal_of_share linesEqual a0 b0 (hall 0 a0 b0 (by simp) (by simp))
      rw [pairPortals_cons_cons, hq]
      cases i with
      | zero =>
        simp only [List.getElem?_cons_zero, Option.some.injEq, zero_add,
          List.getElem?_cons_succ] at ha hb
        subst ha hb
        simp [hq]
      | succ j =>
        simp only [List.getElem?_cons_succ] at ha hb
        have hall' : ∀ (i : Nat) (a b : NavMeshPolygon), (b0 :: t')[i]? = some a →
            (b0 :: t')[i + 1]? = some b → SharePortal linesEqual a b :=
          fun i a b h1 h2 => hall (i + 1) a b (by simpa using h1) (by simpa using h2)
        have := ih hall' j (by simpa using ha) (by simpa using hb)
        simpa using this

theorem pairPortals_length (linesEqual : Line → Line → Bool) (l : List NavMeshPolygon)
    (hall : ∀ (i : Nat) (a b : NavMeshPolygon), l[i]? = some a → l[i + 1]? = some b →
      SharePortal linesEqual a b) :
    (pairPortals linesEqual l).length = l.length - 1 := by
  induction l with
  | nil => simp [pairPortals]
  | cons a0 t ih =>
    cases t with
    | nil => simp [pairPortals]
    | cons b0 t' =>
      obtain ⟨q, hq⟩ := findPortal_of_share linesEqual a0 b0 (hall 0 a0 b0 (by simp) (by simp))
      have hall' : ∀ (i : Nat) (a b : NavMeshPolygon), (b0 :: t')[i]? = some a →
          (b0 :: t')[i + 1]? = some b → SharePortal linesEqual a b :=
        fun i a b h1 h2 => hall (i + 1) a b (by simpa using h1) (by simpa using h2)
      have := ih hall'
      rw [pairPortals_cons_cons, hq]
      simp only [Option.toList_some, List.singleton_append, List.length_cons] at this ⊢
      omega

theorem pairPortals_length_lt (linesEqual : Line → Line → Bool) (l : List NavMeshPolygon)
    (i : Nat) (a b : NavMeshPolygon) (ha : l[i]? = some a) (hb : l[i + 1]? = some b)
    (hno : ¬ SharePortal linesEqual a b) :
    (pairPortals linesEqual l).length + 1 < l.length := by
  induction l generalizing i with
  | nil => simp at ha
  | cons a0 t ih =>
    cases t with
    | nil => simp at hb
    | cons b0 t' =>
      rw [pairPortals_cons_cons]
      cases i with
      | zero =>
        simp only [List.getElem?_cons_zero, Option.some.injEq, zero_add,
          List.getElem?_cons_succ] at ha hb
        subst ha hb
        rw [(findPortal_eq_none_iff linesEqual _ _).2 hno]
        have := pairPortals_length_le linesEqual (b0 :: t')
        simp only [Option.toList_none, List.nil_append, List.length_cons] at this ⊢
        omega
      | succ j =>
        simp only [List.getElem?_cons_succ] at ha hb
        have := ih j (by simpa using ha) (by simpa using hb)
        have hle : (AStarPath.findPortal linesEqual a0 b0).toList.length ≤ 1 := by
          cases AStarPath.findPortal linesEqual a0 b0 <;> simp
        simp only [List.length_append, List.length_cons] at this ⊢
        omega

theorem share_of_zip (linesEqual : Line → Line → Bool) (l : List NavMeshPolygon)
    (h : ∀ ab ∈ l.zip l.tail, SharePortal linesEqual ab.1 ab.2) (i : Nat)
    (a b : NavMeshPolygon) (ha : l[i]? = some a) (hb : l[i + 1]? = some b) :
    SharePortal linesEqual a b := by
  induction l generalizing i with
  | nil => simp at ha
  | cons a0 t ih =>
    cases t with
    | nil => simp at hb
    | cons b0 t' =>
      simp only [List.tail_cons, List.zip_cons_cons, List.mem_cons, forall_eq_or_imp] at h
      cases i with
      | zero =>
        simp only [List.getElem?_cons_zero, Option.some.injEq, zero_add,
          List.getElem?_cons_succ] at ha hb
        subst ha hb
        exact h.1
      | succ j =>
        simp only [List.getElem?_cons_succ] at ha hb
        exact ih (by simpa using h.2) j (by simpa using ha) (by simpa using hb)

/-! ## AStarPath: the loop of `initFunnel` -/

theorem foldl_initFunnel {F : Type} (Funnel : FunnelClass F) (suf pre : List Line)
    (funnel : F) :
    (List.range' pre.length suf.length).foldl (fun funnel i =>
        match (pre ++ suf)[i]? with
        | some portal => Funnel.add funnel portal.start (some portal.end_)
        | none => funnel) funnel =
      Funnel.replay funnel
        (suf.map (fun portal => FunnelCall.add portal.start (some portal.end_))) := by
  induction suf generalizing pre funnel with
  | nil => simp [FunnelClass.replay]
  | cons a t ih =>
    have ha : (pre ++ a :: t)[pre.length]? = some a := by
      rw [List.getElem?_append_right (Nat.le_refl _)]
      simp
    have hpre : pre ++ a :: t = (pre ++ [a]) ++ t := by simp
    have hlen : pre.length + 1 = (pre ++ [a]).length := by simp
    rw [List.length_cons, List.range'_succ, List.foldl_cons, ha]
    simp only [List.map_cons, FunnelClass.replay]
    rw [hpre, hlen, ih (pre ++ [a])]

theorem replay_append {F : Type} (Funnel : FunnelClass F) (calls more : List FunnelCall)
    (funnel : F) :
    Funnel.replay funnel (calls ++ more) = Funnel.replay (Funnel.replay funnel calls) more := by
  induction calls generalizing funnel with
  | nil => rfl
  | cons c cs ih => cases c <;> simp [FunnelClass.replay, ih]

theorem initFunnel_funnel {F : Type} (Funnel : FunnelClass F) (self : AStarPath F) :
    (self.initFunnel Funnel).funnel =
      some (Funnel.replay (Funnel.create self.midPointThreshold)
        (funnelCalls self.startPoint self.portals self.endPoint)) := by
  have h := foldl_initFunnel Funnel self.portals []
  simp only [List.length_nil, List.nil_append] at h
  simp only [AStarPath.initFunnel, List.range_eq_range', h, funnelCalls,
    FunnelClass.replay, replay_append]

theorem replay_recordingFunnel (calls : List FunnelCall) (funnel : Int × List FunnelCall) :
    recordingFunnel.replay funnel calls = (funnel.1, funnel.2 ++ calls) := by
  induction calls generalizing funnel with
  | nil => simp [FunnelClass.replay]
  | cons c cs ih =>
    cases c with
    | add point second =>
      show recordingFunnel.replay (funnel.1, funnel.2 ++ [FunnelCall.add point second]) cs = _
      rw [ih]
      simp
    | update =>
      show recordingFunnel.replay (funnel.1, funnel.2 ++ [FunnelCall.update]) cs = _
      rw [ih]
      simp

/-! ## AStarPath: the claims -/

/-- C1, as stated, fails: `triangleC` and `triangleA` share no portal, yet construction on
the chain `[triangleC, triangleA]` completes normally, with an empty portal list, and the
funnel is fed the start point and the end point as for a chain of one polygon. -/
theorem C1_nonadjacent_pair_raises_no_error :
    ¬ SharePortal areLinesEqual triangleC triangleA ∧
    ∃ obj : AStarPath (Int × List FunnelCall),
      AStarPath.construct areLinesEqual recordingFunnel [triangleC, triangleA]
        sampleOptions = Except.ok obj ∧
      obj.portals = [] ∧
      obj.funnel = some (0, [FunnelCall.add ⟨1, 0⟩ none, FunnelCall.add ⟨3, 1⟩ none,
        FunnelCall.update]) :=
  ⟨by decide, _, rfl, by decide, by decide⟩

/-- C1, amended: for a chain in which some consecutive pair has no portal of the first
equal to a portal of the second, construction raises no error. `initPortals` skips that
pair: the portal list holds, in reverse chain order, the portal found for each consecutive
pair that has one and nothing for the others, so it has fewer than `n - 1` entries, and the
funnel is then fed from that list. -/
theorem C1_nonadjacent_pair_is_skipped {F : Type} (linesEqual : Line → Line → Bool)
    (Funnel : FunnelClass F) (polygons : List NavMeshPolygon) (options : AStarPathOptions)
    (i : Nat) (a b : NavMeshPolygon) (ha : polygons[i]? = some a)
    (hb : polygons[i + 1]? = some b) (hno : ¬ SharePortal linesEqual a b) :
    ∃ obj : AStarPath F,
      AStarPath.construct linesEqual Funnel polygons options = Except.ok obj ∧
      obj.portals = ((polygons.zip polygons.tail).filterMap
        (fun ab => AStarPath.findPortal linesEqual ab.1 ab.2)).reverse ∧
      AStarPath.findPortal linesEqual a b = none ∧
      obj.portals.length + 1 < polygons.length ∧
      obj.funnel = some (Funnel.replay (Funnel.create options.midPointThreshold)
        (funnelCalls options.startPoint obj.portals options.endPoint)) := by
  refine ⟨_, rfl, ?_, (findPortal_eq_none_iff linesEqual a b).2 hno, ?_, ?_⟩
  · simp only [AStarPath.initFunnel, initPortals_portals]
    rfl
  · simp only [AStarPath.initFunnel, initPortals_portals, List.length_reverse]
    exact pairPortals_length_lt linesEqual polygons i a b ha hb hno
  · rw [initFunnel_funnel]
    rfl

/-- Witness of the amended C1 on the chain `[triangleC, triangleA]`. -/
theorem C1_nonadjacent_pair_is_skipped_witness :
    ¬ SharePortal areLinesEqual triangleC triangleA ∧
    ∃ obj : AStarPath (Int × List FunnelCall),
      AStarPath.construct areLinesEqual recordingFunnel [triangleC, triangleA]
        sampleOptions = Except.ok obj ∧
      obj.portals = (([triangleC, triangleA].zip [triangleC, triangleA].tail).filterMap
        (fun ab => AStarPath.findPortal areLinesEqual ab.1 ab.2)).reverse ∧
      AStarPath.findPortal areLinesEqual triangleC triangleA = none ∧
      obj.portals.length + 1 < [triangleC, triangleA].length ∧
      obj.funnel = some (recordingFunnel.replay
        (recordingFunnel.create sampleOptions.midPointThreshold)
        (funnelCalls sampleOptions.startPoint obj.portals sampleOptions.endPoint)) :=
  ⟨by decide,
    C1_nonadjacent_pair_is_skipped areLinesEqual recordingFunnel [triangleC, triangleA]
      sampleOptions 0 triangleC triangleA rfl rfl (by decide)⟩

/-- C3: for a chain `polygons[0..n-1]` in which every consecutive pair shares a portal,
after `initPortals` the `k`-th portal, for every `k` in `0..n-2`, is the first entry of
`polygons[n-2-k].portals` that is equal to some entry of `polygons[n-1-k].portals`: the
first portal joins the last two polygons of the chain and the last portal the first two. -/
theorem C3_portals_in_reverse_chain_order {F : Type} (linesEqual : Line → Line → Bool)
    (self : AStarPath F)
    (hall : ∀ (i : Nat) (a b : NavMeshPolygon), self.polygons[i]? = some a →
      self.polygons[i + 1]? = some b → SharePortal linesEqual a b)
    (k : Nat) (hk : k + 1 < self.polygons.length) :
    ∃ (q : Line) (a b : NavMeshPolygon),
      (self.initPortals linesEqual).portals[k]? = some q ∧
      self.polygons[self.polygons.length - 2 - k]? = some a ∧
      self.polygons[self.polygons.length - 1 - k]? = some b ∧
      IsFirstShared linesEqual a b q := by
  have hlen := pairPortals_length linesEqual self.polygons hall
  have h1 : self.polygons.length - 2 - k < self.polygons.length := by omega
  have h2 : self.polygons.length - 2 - k + 1 < self.polygons.length := by omega
  have ha : self.polygons[self.polygons.length - 2 - k]? =
      some (self.polygons[self.polygons.length - 2 - k]) := List.getElem?_eq_getElem h1
  have hb : self.polygons[self.polygons.length - 2 - k + 1]? =
      some (self.polygons[self.polygons.length - 2 - k + 1]) := List.getElem?_eq_getElem h2
  have hidx : self.polygons.length - 1 - k = self.polygons.length - 2 - k + 1 := by omega
  obtain ⟨q, hq⟩ := findPortal_of_share linesEqual _ _ (hall _ _ _ ha hb)
  refine ⟨q, _, _, ?_, ha, by rw [hidx]; exact hb, findPortal_isFirstShared linesEqual _ _ q hq⟩
  rw [initPortals_portals, List.getElem?_reverse (by omega), hlen]
  have hi : self.polygons.length - 1 - 1 - k = self.polygons.length - 2 - k := by omega
  rw [hi, pairPortals_getElem? linesEqual self.polygons hall _ _ _ ha hb, hq]

/-- Witness of C3 on the sample corridor `[triangleC, triangleB, triangleA]`: the first
portal joins `triangleB` and `triangleA`. -/
theorem C3_portals_in_reverse_chain_order_witness :
    ∃ (q : Line) (a b : NavMeshPolygon),
      (samplePath.initPortals areLinesEqual).portals[0]? = some q ∧
      samplePath.polygons[samplePath.polygons.length - 2 - 0]? = some a ∧
      samplePath.polygons[samplePath.polygons.length - 1 - 0]? = some b ∧
      IsFirstShared areLinesEqual a b q :=
  C3_portals_in_reverse_chain_order areLinesEqual samplePath
    (share_of_zip areLinesEqual samplePath.polygons (by decide)) 0 (by decide)

/-- C4: `initPortals` leaves at most `n - 1` portals for a chain of `n` polygons, none for
a chain of length 1, and exactly `n - 1` when every consecutive pair shares a portal. -/
theorem C4_portal_count {F : Type} (linesEqual : Line → Line → Bool) (self : AStarPath F) :
    (self.initPortals linesEqual).portals.length ≤ self.polygons.length - 1 ∧
    (self.polygons.length = 1 → (self.initPortals linesEqual).portals = []) ∧
    ((∀ (i : Nat) (a b : NavMeshPolygon), self.polygons[i]? = some a →
        self.polygons[i + 1]? = some b → SharePortal linesEqual a b) →
      (self.initPortals linesEqual).portals.length = self.polygons.length - 1) := by
  have hle := pairPortals_length_le linesEqual self.polygons
  refine ⟨?_, fun h1 => ?_, fun hall => ?_⟩
  · rw [initPortals_portals, List.length_reverse]
    exact hle
  · rw [initPortals_portals]
    rw [h1] at hle
    simpa using hle
  · rw [initPortals_portals, List.length_reverse]
    exact pairPortals_length linesEqual self.polygons hall

/-- Witness of C4 on the sample corridor of three triangles: two portals. -/
theorem C4_portal_count_witness :
    (samplePath.initPortals areLinesEqual).portals.length = samplePath.polygons.length - 1 ∧
    ((∀ (i : Nat) (a b : NavMeshPolygon), samplePath.polygons[i]? = some a →
        samplePath.polygons[i + 1]? = some b → SharePortal areLinesEqual a b) ∧
      ({ samplePath with polygons := [triangleA] }.initPortals areLinesEqual).portals = []) :=
  ⟨(C4_portal_count areLinesEqual samplePath).2.2
      (share_of_zip areLinesEqual samplePath.polygons (by decide)),
    share_of_zip areLinesEqual samplePath.polygons (by decide),
    (C4_portal_count areLinesEqual { samplePath with polygons := [triangleA] }).2.1 rfl⟩

/-- C8: `initFunnel` creates a funnel with the given midpoint threshold and makes on it
exactly the calls `add(start)`, `add(p.start, p.end)` for each portal `p` in order,
`add(end)`, `update()`. Whatever the funnel class, the funnel stored is the result of
those calls in that order; a funnel that records its calls holds exactly that list; with no
portal the calls are `add(start)`, `add(end)`, `update()`; and no other field of the
object changes. -/
theorem C8_initFunnel_call_sequence {F : Type} (Funnel : FunnelClass F) (self : AStarPath F)
    (recording : AStarPath (Int × List FunnelCall)) :
    (self.initFunnel Funnel).funnel =
      some (Funnel.replay (Funnel.create self.midPointThreshold)
        (FunnelCall.add self.startPoint none ::
          (self.portals.map (fun p => FunnelCall.add p.start (some p.end_)) ++
            [FunnelCall.add self.endPoint none, FunnelCall.update]))) ∧
    (recording.initFunnel recordingFunnel).funnel =
      some (recording.midPointThreshold,
        FunnelCall.add recording.startPoint none ::
          (recording.portals.map (fun p => FunnelCall.add p.start (some p.end_)) ++
            [FunnelCall.add recording.endPoint none, FunnelCall.update])) ∧
    funnelCalls self.startPoint [] self.endPoint =
      [FunnelCall.add self.startPoint none, FunnelCall.add self.endPoint none,
        FunnelCall.update] ∧
    self.initFunnel Funnel = { self with funnel := (self.initFunnel Funnel).funnel } := by
  refine ⟨initFunnel_funnel Funnel self, ?_, rfl, rfl⟩
  rw [initFunnel_funnel, replay_recordingFunnel]
  simp [recordingFunnel, funnelCalls]

/-- Witness of C10 on the sample region: the first recorded constraint edge is `[2, 3]`,
for the first child edge. -/
theorem C10_constraint_edges_witness :
    (DelaunayCluster.construct cdt2dFirst sampleEdges sampleParentEdges sampleChildEdges 2 3
      ()).edges[0]? = some (2, 3) ∧
    ∃ e : Line, (sampleChildEdges ++ sampleEdges)[0]? = some e ∧
      2 < (DelaunayCluster.construct cdt2dFirst sampleEdges sampleParentEdges
        sampleChildEdges 2 3 ()).points.length ∧
      3 < (DelaunayCluster.construct cdt2dFirst sampleEdges sampleParentEdges
        sampleChildEdges 2 3 ()).points.length ∧
      (DelaunayCluster.construct cdt2dFirst sampleEdges sampleParentEdges sampleChildEdges
        2 3 ()).points[2]? = some (scalePoint 2 3 e.start) ∧
      (DelaunayCluster.construct cdt2dFirst sampleEdges sampleParentEdges sampleChildEdges
        2 3 ()).points[3]? = some (scalePoint 2 3 e.end_) :=
  ⟨by decide,
    (C10_constraint_edges_index_scaled_endpoints cdt2dFirst sampleEdges sampleParentEdges
      sampleChildEdges 2 3 ()).1 0 2 3 (by decide)⟩

/-! ## `initPortals` by reference agrees with `initPortals` by value -/

theorem set_append_length {α : Type} (s : List α) (a x : α) :
    (s ++ [a]).set s.length x = s ++ [x] := by
  induction s with
  | nil => rfl
  | cons b t ih => simp [List.set, ih]

theorem read_append_length (s : ArrayStore) (a : List Line) :
    ArrayStore.read (s ++ [a]) s.length = a := by
  unfold ArrayStore.read
  rw [List.getElem?_append_right (Nat.le_refl _)]
  simp

theorem read_append_lt (s : ArrayStore) (a : List Line) (r : Nat) (h : r < s.length) :
    ArrayStore.read (s ++ [a]) r = ArrayStore.read s r := by
  unfold ArrayStore.read
  rw [List.getElem?_append_left h]

theorem deref_append (s : ArrayStore) (a : List Line) (polygons : List ByReference.NavMeshPolygon)
    (hvalid : ∀ p ∈ polygons, p.portals < s.length) :
    ByReference.deref (s ++ [a]) polygons = ByReference.deref s polygons := by
  unfold ByReference.deref
  apply List.map_congr_left
  intro p hp
  rw [read_append_lt s a p.portals (hvalid p hp)]

theorem byRef_initPortalsStep (linesEqual : Line → Line → Bool) (store : ArrayStore)
    (polygons : List ByReference.NavMeshPolygon)
    (hvalid : ∀ p ∈ polygons, p.portals < store.length) (acc : List Line) (i : Nat) :
    ByReference.initPortalsStep linesEqual polygons store.length (store ++ [acc]) i =
      store ++ [AStarPath.initPortalsStep linesEqual (ByReference.deref store polygons) acc
        i] := by
  unfold ByReference.initPortalsStep AStarPath.initPortalsStep ByReference.deref
  rw [List.getElem?_map, List.getElem?_map]
  cases hi : polygons[i]? with
  | none => simp
  | some node =>
    cases hj : polygons[i + 1]? with
    | none => simp
    | some nextNode =>
      have h1 := hvalid node (List.getElem?_mem hi)
      have h2 := hvalid nextNode (List.getElem?_mem hj)
      simp only [Option.map_some', read_append_lt store acc _ h1,
        read_append_lt store acc _ h2, read_append_length]
      cases hf : AStarPath.findPortal linesEqual ⟨store.read node.portals⟩
          ⟨store.read nextNode.portals⟩ with
      | none => simp
      | some portal => simp [set_append_length]

theorem byRef_foldl_initPortalsStep (linesEqual : Line → Line → Bool) (store : ArrayStore)
    (polygons : List ByReference.NavMeshPolygon)
    (hvalid : ∀ p ∈ polygons, p.portals < store.length) (idxs : List Nat)
    (acc : List Line) :
    idxs.foldl (ByReference.initPortalsStep linesEqual polygons store.length)
        (store ++ [acc]) =
      store ++ [idxs.foldl
        (AStarPath.initPortalsStep linesEqual (ByReference.deref store polygons)) acc] := by
  induction idxs generalizing acc with
  | nil => rfl
  | cons i t ih =>
    rw [List.foldl_cons, byRef_initPortalsStep linesEqual store polygons hvalid, ih,
      List.foldl_cons]

theorem byRef_initPortals_eq {F : Type} (linesEqual : Line → Line → Bool)
    (store : ArrayStore) (byRef : ByReference.AStarPath)
    (hvalid : ∀ p ∈ byRef.polygons, p.portals < store.length) (self : AStarPath F)
    (hsame : ByReference.deref store byRef.polygons = self.polygons) :
    ByReference.initPortals linesEqual store byRef =
      (store ++ [(self.initPortals linesEqual).portals],
        { byRef with portals := store.length }) := by
  have hlen : byRef.polygons.length = self.polygons.length := by
    rw [← hsame]
    simp [ByReference.deref]
  unfold ByReference.initPortals AStarPath.initPortals
  simp only [byRef_foldl_initPortalsStep linesEqual store byRef.polygons hvalid,
    read_append_length, set_append_length, hsame, hlen]

/-- C9: `initPortals` has no side effect on the mesh. By value: it changes nothing but
the `portals` field, and running it again gives the same object. With arrays held by
reference, for a chain whose polygons own arrays of the store: every array that existed
before the call, the portals array of every polygon among them, has the same contents in
the same order afterwards; the pushes and the in-place reverse reach only the array that
`initPortals` created, which ends up holding the portals list computed by value; and a
second run again leaves every earlier array untouched and produces an equal list. -/
theorem C9_initPortals_frame {F : Type} (linesEqual : Line → Line → Bool)
    (self : AStarPath F) (store : ArrayStore) (byRef : ByReference.AStarPath)
    (hvalid : ∀ p ∈ byRef.polygons, p.portals < store.length)
    (hsame : ByReference.deref store byRef.polygons = self.polygons) :
    (self.initPortals linesEqual).polygons = self.polygons ∧
    self.initPortals linesEqual =
      { self with portals := (self.initPortals linesEqual).portals } ∧
    (self.initPortals linesEqual).initPortals linesEqual = self.initPortals linesEqual ∧
    (ByReference.initPortals linesEqual store byRef).2.polygons = byRef.polygons ∧
    (∀ ref : Nat, ref < store.length →
      (ByReference.initPortals linesEqual store byRef).1[ref]? = store[ref]?) ∧
    ByReference.deref (ByReference.initPortals linesEqual store byRef).1
      (ByReference.initPortals linesEqual store byRef).2.polygons = self.polygons ∧
    (ByReference.initPortals linesEqual store byRef).1.read
      (ByReference.initPortals linesEqual store byRef).2.portals =
        (self.initPortals linesEqual).portals ∧
    (∀ ref : Nat, ref < store.length →
      (ByReference.initPortals linesEqual
        (ByReference.initPortals linesEqual store byRef).1
        (ByReference.initPortals linesEqual store byRef).2).1[ref]? = store[ref]?) ∧
    (ByReference.initPortals linesEqual
        (ByReference.initPortals linesEqual store byRef).1
        (ByReference.initPortals linesEqual store byRef).2).1.read
      (ByReference.initPortals linesEqual
        (ByReference.initPortals linesEqual store byRef).1
        (ByReference.initPortals linesEqual store byRef).2).2.portals =
      (ByReference.initPortals linesEqual store byRef).1.read
        (ByReference.initPortals linesEqual store byRef).2.portals := by
  have h1 := byRef_initPortals_eq linesEqual store byRef hvalid self hsame
  have hvalid' : ∀ p ∈ ({ byRef with portals := store.length } :
      ByReference.AStarPath).polygons,
      p.portals < (store ++ [(self.initPortals linesEqual).portals]).length := by
    intro p hp
    have := hvalid p hp
    simp only [List.length_append, List.length_singleton]
    omega
  have hsame' : ByReference.deref (store ++ [(self.initPortals linesEqual).portals])
      ({ byRef with portals := store.length } : ByReference.AStarPath).polygons =
      (self.initPortals linesEqual).polygons :=
    (deref_append store _ byRef.polygons hvalid).trans hsame
  have h2 := byRef_initPortals_eq linesEqual
    (store ++ [(self.initPortals linesEqual).portals])
    { byRef with portals := store.length } hvalid' (self.initPortals linesEqual) hsame'
  rw [h1, h2]
  refine ⟨rfl, rfl, rfl, rfl, ?_, ?_, ?_, ?_, ?_⟩
  · intro ref href
    exact List.getElem?_append_left href
  · exact (deref_append store _ byRef.polygons hvalid).trans hsame
  · exact read_append_length store _
  · intro ref href
    have href' : ref < (store ++ [(self.initPortals linesEqual).portals]).length := by
      simp only [List.length_append, List.length_singleton]
      omega
    show ((store ++ [(self.initPortals linesEqual).portals]) ++ _)[ref]? = store[ref]?
    rw [List.getElem?_append_left href', List.getElem?_append_left href]
  · show ArrayStore.read ((store ++ [(self.initPortals linesEqual).portals]) ++ _)
      (store ++ [(self.initPortals linesEqual).portals]).length = _
    rw [read_append_length, read_append_length]
    rfl

/-- Witness of C9 on the sample corridor, by value and over `sampleStore`: the three
portals arrays of the triangles are as before and the new array holds the two portals. -/
theorem C9_initPortals_frame_witness :
    (ByReference.initPortals areLinesEqual sampleStore samplePathByRef).1 =
      sampleStore ++ [[⟨⟨0, 2⟩, ⟨2, 0⟩⟩, ⟨⟨2, 2⟩, ⟨2, 0⟩⟩]] ∧
    (∀ ref : Nat, ref < sampleStore.length →
      (ByReference.initPortals areLinesEqual sampleStore samplePathByRef).1[ref]? =
        sampleStore[ref]?) ∧
    (ByReference.initPortals areLinesEqual sampleStore samplePathByRef).1.read
      (ByReference.initPortals areLinesEqual sampleStore samplePathByRef).2.portals =
        (samplePath.initPortals areLinesEqual).portals :=
  ⟨by decide,
    (C9_initPortals_frame areLinesEqual samplePath sampleStore samplePathByRef
      (by decide) (by decide)).2.2.2.2.1,
    (C9_initPortals_frame areLinesEqual samplePath sampleStore samplePathByRef
      (by decide) (by decide)).2.2.2.2.2.2.1⟩

end Navmesh
